import Mathlib

/-!
Verification of the chess game-analysis engine (`src/tools/stockfish_tools.py`
and `src/tools/board_tools.py`) against its specification.

The stateful batch analyser `batch_analyze_games` is embedded as a fold over
per-move inputs.  The external evaluator (Stockfish) is modelled by the data it
returns for each half-move: the pre-move evaluation together with the top-3
candidate list (grouped, since a failure of either call lands in the same
`except` branch before the board push), and the post-move evaluation.  `none`
models an exception raised by the corresponding engine call.  The rules
collaborator's board is modelled by its observable trace: the list of moves
pushed, in order, plus the fullmove number and piece count it would report for
the pre-move position (carried as per-move input data).  Python dict entries
that are only conditionally written (`acpl`, the rate fields, per-phase
`acpl`) are modelled as `Option` fields, `none` meaning the key is absent.
-/

namespace ChessCode

/-- Game phase tag, the return value of `get_game_phase` in
`src/tools/board_tools.py`. -/
inductive Phase : Type
  | opening : Phase
  | middlegame : Phase
  | endgame : Phase
deriving DecidableEq, Repr

/-- `get_game_phase` from `src/tools/board_tools.py`, lines 128-143, as a
function of the two facts it reads off the board: `board.fullmove_number` and
the combined knight+bishop+rook+queen count of both sides
(`minor_and_major`). -/
def get_game_phase (fullmove_number : Nat) (minor_and_major : Nat) : Phase :=
  if fullmove_number ≤ 15 ∧ 12 ≤ minor_and_major then Phase.opening
  else if minor_and_major ≤ 6 then Phase.endgame
  else Phase.middlegame

/-- A Stockfish evaluation dict: a tagged value, `type == "cp"` carrying a
centipawn score or `type == "mate"` carrying a signed mate distance (positive
meaning the perspective side delivers mate). -/
inductive Evaluation : Type
  | cp (value : Int) : Evaluation
  | mate (value : Int) : Evaluation
deriving DecidableEq, Repr

/-- `_cp_value` from `src/tools/stockfish_tools.py`, lines 109-116.  The
Python fallback `return 0` for a dict that is neither cp- nor mate-tagged is
unreachable in this tagged-union embedding. -/
def cp_value : Evaluation → Int
  | Evaluation.cp v => v
  | Evaluation.mate v => if 0 < v then 10000 else -10000

/-- The side that played a half-move.  In the code this is read off the board
after the push: `board.turn == chess.BLACK` means White just moved. -/
inductive Side : Type
  | white : Side
  | black : Side
deriving DecidableEq, Repr

/-- The centipawn-loss computation of `batch_analyze_games`, lines 193-199:
`cpl = max(0, cp_before - (-cp_after))` when White just moved and
`cpl = max(0, (-cp_before) - cp_after)` when Black just moved. -/
def move_loss (mover : Side) (cp_before cp_after : Int) : Int :=
  match mover with
  | Side.white => max 0 (cp_before - (-cp_after))
  | Side.black => max 0 ((-cp_before) - cp_after)

/-- One entry of the `phase_stats` sub-dicts of the stats dict
(lines 144-146). -/
structure PhaseStats : Type where
  positions : Nat
  total_cpl : Int
  blunders : Nat
deriving DecidableEq, Repr

/-- The mutable stats dict of `batch_analyze_games` (lines 134-149), before
the derived fields are added. -/
structure Stats : Type where
  total_positions : Nat
  total_cpl : Int
  blunders : Nat
  mistakes : Nat
  inaccuracies : Nat
  t1_matches : Nat
  t2_matches : Nat
  t3_matches : Nat
  opening : PhaseStats
  middlegame : PhaseStats
  endgame : PhaseStats
  games_analyzed : Nat
deriving DecidableEq, Repr

/-- The initial stats dict (all counters zero), lines 134-149. -/
def stats_init : Stats :=
  { total_positions := 0, total_cpl := 0, blunders := 0, mistakes := 0,
    inaccuracies := 0, t1_matches := 0, t2_matches := 0, t3_matches := 0,
    opening := ⟨0, 0, 0⟩, middlegame := ⟨0, 0, 0⟩, endgame := ⟨0, 0, 0⟩,
    games_analyzed := 0 }

/-- `stats["phase_stats"][phase] = f(...)`: update the sub-dict selected by a
phase key. -/
def Stats.phaseUpdate (st : Stats) (p : Phase) (f : PhaseStats → PhaseStats) :
    Stats :=
  match p with
  | Phase.opening => { st with opening := f st.opening }
  | Phase.middlegame => { st with middlegame := f st.middlegame }
  | Phase.endgame => { st with endgame := f st.endgame }

/-- Read the sub-dict selected by a phase key. -/
def Stats.phaseGet (st : Stats) : Phase → PhaseStats
  | Phase.opening => st.opening
  | Phase.middlegame => st.middlegame
  | Phase.endgame => st.endgame

/-- The T1/T2/T3 rank-match update, lines 172-182.  The guard on line 174
parses as `(played_uci == top_ucis[0]) if len(top_ucis) > 0 else False`,
which is exactly membership in `top_ucis[:1]`; the `elif` tests are
membership in `top_ucis[:2]` and `top_ucis[:3]`. -/
def updateMatches (st : Stats) (played : String) (topUcis : List String) :
    Stats :=
  if played ∈ topUcis.take 1 then
    { st with t1_matches := st.t1_matches + 1, t2_matches := st.t2_matches + 1,
              t3_matches := st.t3_matches + 1 }
  else if played ∈ topUcis.take 2 then
    { st with t2_matches := st.t2_matches + 1, t3_matches := st.t3_matches + 1 }
  else if played ∈ topUcis.take 3 then
    { st with t3_matches := st.t3_matches + 1 }
  else st

/-- The loss-accounting update on a successful evaluation, lines 201-212:
accumulate `total_cpl`/`total_positions` and the per-phase counts, then
bump exactly one severity counter (blunders also per phase). -/
def updateLoss (st : Stats) (phase : Phase) (cpl : Int) : Stats :=
  let st1 : Stats :=
    { st with total_cpl := st.total_cpl + cpl,
              total_positions := st.total_positions + 1 }
  let st2 : Stats :=
    st1.phaseUpdate phase fun ps =>
      { ps with positions := ps.positions + 1, total_cpl := ps.total_cpl + cpl }
  if 200 < cpl then
    Stats.phaseUpdate { st2 with blunders := st2.blunders + 1 } phase
      fun ps => { ps with blunders := ps.blunders + 1 }
  else if 100 < cpl then { st2 with mistakes := st2.mistakes + 1 }
  else if 50 < cpl then { st2 with inaccuracies := st2.inaccuracies + 1 }
  else st2

/-- Everything the external collaborators supply for one half-move of a game:
the played move's UCI string, the fullmove number, the combined minor+major
piece count and the mover read off the board, and the results of the engine
calls.  `preEval` groups the pre-push engine interactions (`get_evaluation`
and `get_top_moves(3)`, lines 165-168); `none` means one of them raised.
`postEval` is the post-push `get_evaluation` (lines 186-188); `none` means it
raised. -/
structure MoveInput : Type where
  uci : String
  fullmove : Nat
  pieceCount : Nat
  mover : Side
  preEval : Option (Evaluation × List String)
  postEval : Option Evaluation
deriving DecidableEq, Repr

/-- Per-game loop state: the shared stats dict, the board's push trace, and
the `move_num` counter (lines 152-153). -/
structure GameState : Type where
  stats : Stats
  board : List String
  move_num : Nat
deriving DecidableEq, Repr

/-- One iteration of the inner `for move in game.mainline_moves()` loop,
lines 155-216.  Mirrors the control flow exactly: the configured skip pushes
and continues; a pre-push engine failure lands in `except`, which pushes and
continues; on pre-push success the T-match counters are updated, the move is
pushed, and the post-move evaluation is requested — if it raises, the
`except` branch pushes the move a second time; on full success the loss is
accounted. -/
def processMove (skip_opening_moves : Nat) (s : GameState) (m : MoveInput) :
    GameState :=
  let move_num := s.move_num + 1
  if move_num ≤ skip_opening_moves then
    { s with move_num := move_num, board := s.board ++ [m.uci] }
  else
    let phase := get_game_phase m.fullmove m.pieceCount
    match m.preEval with
    | none =>
        { s with move_num := move_num, board := s.board ++ [m.uci] }
    | some pre =>
        let st1 := updateMatches s.stats m.uci pre.2
        let board1 := s.board ++ [m.uci]
        match m.postEval with
        | none =>
            { stats := st1, board := board1 ++ [m.uci], move_num := move_num }
        | some eval_after =>
            let cpl := move_loss m.mover (cp_value pre.1) (cp_value eval_after)
            { stats := updateLoss st1 phase cpl, board := board1,
              move_num := move_num }

/-- One iteration of the outer `for game in games` loop, lines 151-218: a
fresh board and `move_num` for each game, then `games_analyzed += 1`.
Returns the updated stats together with the game board's push trace. -/
def processGame (skip_opening_moves : Nat) (st : Stats)
    (g : List MoveInput) : Stats × List String :=
  let s := g.foldl (processMove skip_opening_moves)
    { stats := st, board := [], move_num := 0 }
  ({ s.stats with games_analyzed := s.stats.games_analyzed + 1 }, s.board)

/-- The accumulation phase of `batch_analyze_games` over a whole batch,
lines 151-218. -/
def runBatch (skip_opening_moves : Nat) (games : List (List MoveInput)) :
    Stats :=
  games.foldl (fun st g => (processGame skip_opening_moves st g).1) stats_init

/-- The dict returned by `batch_analyze_games`: the accumulated counters plus
the derived keys of lines 220-238.  An `Option` field is `none` when the
code never writes that key. -/
structure BatchStats : Type where
  base : Stats
  acpl : Option ℚ
  blunder_rate : Option ℚ
  mistake_rate : Option ℚ
  inaccuracy_rate : Option ℚ
  t1_accuracy : Option ℚ
  t2_accuracy : Option ℚ
  t3_accuracy : Option ℚ
  opening_acpl : Option ℚ
  middlegame_acpl : Option ℚ
  endgame_acpl : Option ℚ
deriving DecidableEq, Repr

/-- Python's `round(x, d)` modelled over exact rationals as round to nearest
with `d` decimal digits.  (No claim depends on tie-breaking or on binary
floating-point rounding error; every value a claim inspects is exact.) -/
def roundTo (d : Nat) (q : ℚ) : ℚ := (round (q * 10 ^ d) : ℤ) / 10 ^ d

/-- The derived-statistics phase, lines 220-238: rates and accuracies divided
by `total_positions` when it is positive; otherwise only `acpl`,
`blunder_rate` and `t1_accuracy` are written (with value 0).  Per-phase
`acpl` is written only for phases with positions. -/
def deriveStats (st : Stats) : BatchStats :=
  if 0 < st.total_positions then
    let total : ℚ := st.total_positions
    { base := st,
      acpl := some (roundTo 1 (st.total_cpl / total)),
      blunder_rate := some (roundTo 4 (st.blunders / total)),
      mistake_rate := some (roundTo 4 (st.mistakes / total)),
      inaccuracy_rate := some (roundTo 4 (st.inaccuracies / total)),
      t1_accuracy := some (roundTo 4 (st.t1_matches / total)),
      t2_accuracy := some (roundTo 4 (st.t2_matches / total)),
      t3_accuracy := some (roundTo 4 (st.t3_matches / total)),
      opening_acpl :=
        if 0 < st.opening.positions then
          some (roundTo 1 (st.opening.total_cpl / (st.opening.positions : ℚ)))
        else none,
      middlegame_acpl :=
        if 0 < st.middlegame.positions then
          some (roundTo 1 (st.middlegame.total_cpl /
            (st.middlegame.positions : ℚ)))
        else none,
      endgame_acpl :=
        if 0 < st.endgame.positions then
          some (roundTo 1 (st.endgame.total_cpl / (st.endgame.positions : ℚ)))
        else none }
  else
    { base := st, acpl := some 0, blunder_rate := some 0,
      mistake_rate := none, inaccuracy_rate := none,
      t1_accuracy := some 0, t2_accuracy := none, t3_accuracy := none,
      opening_acpl := none, middlegame_acpl := none, endgame_acpl := none }

/-- `batch_analyze_games` end to end (lines 119-242), as a function of the
configuration and the per-move collaborator data. -/
def batch_analyze_games (skip_opening_moves : Nat)
    (games : List (List MoveInput)) : BatchStats :=
  deriveStats (runBatch skip_opening_moves games)

/-- Number of half-moves of a game on which an engine call raises (with no
configured skip, every such move lands in the `except` branch). -/
def evalFailures (g : List MoveInput) : Nat :=
  g.countP fun m => m.preEval.isNone || m.postEval.isNone

/-- A half-move on which both engine calls succeed: played move `a`, engine
top move `b` (no rank match), pre-move evaluation +10 cp, post-move 0 cp,
giving a loss of 10 cp for the White mover. -/
def okMove : MoveInput :=
  { uci := "a", fullmove := 1, pieceCount := 14, mover := Side.white,
    preEval := some (Evaluation.cp 10, ["b"]), postEval := some (Evaluation.cp 0) }

/-- A half-move on which the pre-move engine call raises. -/
def failMove : MoveInput :=
  { uci := "c", fullmove := 1, pieceCount := 14, mover := Side.white,
    preEval := none, postEval := none }

/-- A half-move on which the pre-move engine call succeeds — with the played
move `p` equal to the engine's top choice — and the post-move evaluation
raises. -/
def postFailMove : MoveInput :=
  { uci := "p", fullmove := 1, pieceCount := 14, mover := Side.white,
    preEval := some (Evaluation.cp 0, ["p"]), postEval := none }

/-- A ten-half-move game on which exactly one engine call (the pre-move call
of the fifth half-move) raises. -/
def game10 : List MoveInput :=
  List.replicate 4 okMove ++ failMove :: List.replicate 5 okMove

/-- Phase decomposition is conservative: the batch totals equal the sums of
the three per-phase counters. -/
def conserved (st : Stats) : Prop :=
  st.total_positions =
      st.opening.positions + st.middlegame.positions + st.endgame.positions ∧
  st.total_cpl =
      st.opening.total_cpl + st.middlegame.total_cpl + st.endgame.total_cpl ∧
  st.blunders =
      st.opening.blunders + st.middlegame.blunders + st.endgame.blunders

instance (st : Stats) : Decidable (conserved st) := by
  unfold conserved; infer_instance

/-- Claim C6: phase classification is the total deterministic function of the
fullmove number and the combined knight+bishop+rook+queen count, testing
`fullmove ≤ 15 ∧ count ≥ 12 → opening`, then `count ≤ 6 → endgame`, else
`middlegame`, in that order; with the three concrete cases of the spec. -/
theorem C6_phase_classification (f c : Nat) :
    get_game_phase f c =
      (if f ≤ 15 ∧ 12 ≤ c then Phase.opening
       else if c ≤ 6 then Phase.endgame else Phase.middlegame) ∧
    get_game_phase 1 12 = Phase.opening ∧
    get_game_phase 30 4 = Phase.endgame ∧
    get_game_phase 10 8 = Phase.middlegame :=
  ⟨rfl, by decide, by decide, by decide⟩

/-- Witness for C6 at fullmove 30, piece count 4. -/
theorem C6_witness : get_game_phase 30 4 = Phase.endgame :=
  (C6_phase_classification 30 4).2.2.1

/-- Claim C9: evaluation normalization is total and exact — a cp-tagged value
passes through unchanged, a mate-tagged value maps to +10000 exactly when the
mate value is positive (the perspective side mates) and to −10000 otherwise;
in particular mate value 0 (the perspective side is already mated) maps to
−10000. -/
theorem C9_cp_value (v : Int) :
    cp_value (Evaluation.cp v) = v ∧
    cp_value (Evaluation.mate v) = (if 0 < v then (10000 : Int) else -10000) ∧
    cp_value (Evaluation.mate 0) = -10000 ∧
    cp_value (Evaluation.mate (-3)) = -10000 ∧
    cp_value (Evaluation.mate 2) = 10000 :=
  ⟨rfl, rfl, by decide, by decide, by decide⟩

/-- Witness for C9 at mate value 0. -/
theorem C9_witness : cp_value (Evaluation.mate 0) = -10000 :=
  (C9_cp_value 0).2.2.1

/-- Claim C1 (code bug): for a Black half-move with pre-move evaluation
+50 cp (mover's perspective) and post-move evaluation +50 cp (opponent's
perspective), the claimed uniform formula gives `max(0, 50 − (−50)) = 100`,
and the White branch of the code does compute exactly that — but the Black
branch computes `max(0, (−50) − 50) = 0`: the code negates the before-value
instead of the after-value when Black moved, contradicting its own comment
`CPL from the moving side's perspective`. -/
theorem C1_black_loss_bug :
    move_loss Side.white 50 50 = max 0 ((50 : Int) - -50) ∧
    move_loss Side.black 50 50 = 0 ∧
    move_loss Side.black 50 50 ≠ max 0 ((50 : Int) - -50) := by
  refine ⟨by decide, by decide, by decide⟩

/-- Claim C2, counterexample: a batch of one one-move game whose single
evaluator call fails returns a result identical to a batch of one empty game
— the two runs have different failure counts (1 versus 0) yet equal outputs,
so no field of the returned statistics records an error/skip count; in
particular there is no `total_errors`. -/
theorem C2_counterexample :
    evalFailures [failMove] = 1 ∧ evalFailures ([] : List MoveInput) = 0 ∧
    batch_analyze_games 0 [[failMove]] = batch_analyze_games 0 [[]] := by
  refine ⟨by decide, by decide, by decide⟩

/-- Claim C2, amended: the returned statistics contain no error/skip counter;
evaluator failures are silently discarded.  For a game with 10 half-moves
where exactly one evaluator call fails, `games_analyzed` increases by 1 and
`total_positions` by 9, but the failure leaves no trace in the output. -/
theorem C2_no_error_counter :
    evalFailures game10 = 1 ∧
    (runBatch 0 [game10]).games_analyzed = 1 ∧
    (runBatch 0 [game10]).total_positions = 9 := by
  refine ⟨by decide, by decide, by decide⟩

/-- Claim C3 (code bug): when the post-move evaluation of a half-move fails,
that half-move is NOT treated identically to a pre-move failure — the
rank-match counters were already incremented before the post-move call and
are not rolled back.  At a game whose only half-move plays the engine's top
choice and then fails the post-move evaluation, the batch ends with
`t1_matches = t2_matches = t3_matches = 1` while `total_positions = 0`,
making `t1_matches ≤ total_positions` (and accuracy ≤ 1) false. -/
theorem C3_match_counted_on_post_failure :
    (runBatch 0 [[postFailMove]]).t1_matches = 1 ∧
    (runBatch 0 [[postFailMove]]).t2_matches = 1 ∧
    (runBatch 0 [[postFailMove]]).t3_matches = 1 ∧
    (runBatch 0 [[postFailMove]]).total_positions = 0 ∧
    (runBatch 0 [[postFailMove]]).total_cpl = 0 ∧
    (runBatch 0 [[postFailMove]]).blunders = 0 ∧
    (runBatch 0 [[postFailMove]]).mistakes = 0 ∧
    (runBatch 0 [[postFailMove]]).inaccuracies = 0 := by
  refine ⟨by decide, by decide, by decide, by decide, by decide, by decide,
    by decide, by decide⟩

/-- Claim C4 (code bug): a half-move whose pre-move call fails, or which
succeeds fully, is pushed exactly once — but a half-move whose post-move
evaluation fails is pushed twice, because the `except` branch pushes
unconditionally even though the push on line 185 already happened.  The board
trace for a one-move game with a post-move failure is `[p, p]`. -/
theorem C4_double_push_on_post_failure :
    (processGame 0 stats_init [postFailMove]).2 = ["p", "p"] ∧
    (processGame 0 stats_init [failMove]).2 = ["c"] ∧
    (processGame 0 stats_init [okMove]).2 = ["a"] := by
  refine ⟨by decide, by decide, by decide⟩

/-- Claim C5, counterexample: a batch with zero evaluable positions returns a
result in which `mistake_rate`, `inaccuracy_rate`, `t2_accuracy` and
`t3_accuracy` are absent, not present with value 0. -/
theorem C5_counterexample :
    (runBatch 0 ([] : List (List MoveInput))).total_positions = 0 ∧
    (batch_analyze_games 0 []).mistake_rate = none ∧
    (batch_analyze_games 0 []).inaccuracy_rate = none ∧
    (batch_analyze_games 0 []).t2_accuracy = none ∧
    (batch_analyze_games 0 []).t3_accuracy = none := by
  refine ⟨by decide, by decide, by decide, by decide, by decide⟩

/-- Claim C5, amended: if a batch ends with `total_positions = 0` the run
returns without raising, with `acpl`, `blunder_rate` and `t1_accuracy`
present with value 0 and with `mistake_rate`, `inaccuracy_rate`,
`t2_accuracy` and `t3_accuracy` absent. -/
theorem C5_zero_guard (skip : Nat) (games : List (List MoveInput))
    (h : (runBatch skip games).total_positions = 0) :
    (batch_analyze_games skip games).acpl = some 0 ∧
    (batch_analyze_games skip games).blunder_rate = some 0 ∧
    (batch_analyze_games skip games).t1_accuracy = some 0 ∧
    (batch_analyze_games skip games).mistake_rate = none ∧
    (batch_analyze_games skip games).inaccuracy_rate = none ∧
    (batch_analyze_games skip games).t2_accuracy = none ∧
    (batch_analyze_games skip games).t3_accuracy = none := by
  simp [batch_analyze_games, deriveStats, h]

/-- An invariant preserved by each step of a left fold holds of the result. -/
theorem foldl_preserve {α β : Type} (P : β → Prop) (f : β → α → β)
    (l : List α) (b : β) (hb : P b) (hf : ∀ b a, P b → P (f b a)) :
    P (l.foldl f b) := by
  induction l generalizing b with
  | nil => exact hb
  | cons x xs ih => exact ih (f b x) (hf b x hb)

/-- `deriveStats` copies the accumulated counters unchanged into the result. -/
theorem deriveStats_base (st : Stats) : (deriveStats st).base = st := by
  unfold deriveStats; split_ifs <;> rfl

/-- `processMove` with its `let` bindings expanded, for case analysis. -/
theorem processMove_eq (skip : Nat) (s : GameState) (m : MoveInput) :
    processMove skip s m =
      if s.move_num + 1 ≤ skip then
        { stats := s.stats, board := s.board ++ [m.uci],
          move_num := s.move_num + 1 }
      else
        match m.preEval with
        | none =>
            { stats := s.stats, board := s.board ++ [m.uci],
              move_num := s.move_num + 1 }
        | some pre =>
            match m.postEval with
            | none =>
                { stats := updateMatches s.stats m.uci pre.2,
                  board := (s.board ++ [m.uci]) ++ [m.uci],
                  move_num := s.move_num + 1 }
            | some ea =>
                { stats := updateLoss (updateMatches s.stats m.uci pre.2)
                    (get_game_phase m.fullmove m.pieceCount)
                    (move_loss m.mover (cp_value pre.1) (cp_value ea)),
                  board := s.board ++ [m.uci],
                  move_num := s.move_num + 1 } := rfl

/-- `updateLoss` leaves the three rank-match counters unchanged. -/
theorem updateLoss_t_matches (st : Stats) (p : Phase) (cpl : Int) :
    (updateLoss st p cpl).t1_matches = st.t1_matches ∧
    (updateLoss st p cpl).t2_matches = st.t2_matches ∧
    (updateLoss st p cpl).t3_matches = st.t3_matches := by
  cases p <;> simp only [updateLoss, Stats.phaseUpdate] <;> split_ifs <;>
    exact ⟨rfl, rfl, rfl⟩

/-- The severity and accumulation fields of `updateLoss`, in closed form. -/
theorem updateLoss_fields (st : Stats) (p : Phase) (cpl : Int) :
    (updateLoss st p cpl).blunders =
      (if 200 < cpl then st.blunders + 1 else st.blunders) ∧
    (updateLoss st p cpl).mistakes =
      (if 200 < cpl then st.mistakes
       else if 100 < cpl then st.mistakes + 1 else st.mistakes) ∧
    (updateLoss st p cpl).inaccuracies =
      (if 200 < cpl then st.inaccuracies
       else if 100 < cpl then st.inaccuracies
       else if 50 < cpl then st.inaccuracies + 1 else st.inaccuracies) ∧
    (updateLoss st p cpl).total_cpl = st.total_cpl + cpl ∧
    (updateLoss st p cpl).total_positions = st.total_positions + 1 := by
  cases p <;> simp only [updateLoss, Stats.phaseUpdate] <;> split_ifs <;>
    exact ⟨rfl, rfl, rfl, rfl, rfl⟩

/-- `updateMatches` preserves `t1 ≤ t2 ≤ t3`. -/
theorem updateMatches_mono (st : Stats) (played : String)
    (tops : List String) (h1 : st.t1_matches ≤ st.t2_matches)
    (h2 : st.t2_matches ≤ st.t3_matches) :
    (updateMatches st played tops).t1_matches ≤
      (updateMatches st played tops).t2_matches ∧
    (updateMatches st played tops).t2_matches ≤
      (updateMatches st played tops).t3_matches := by
  unfold updateMatches; split_ifs <;> (try dsimp only) <;> omega

/-- `processMove` preserves `t1 ≤ t2 ≤ t3`. -/
theorem processMove_mono (skip : Nat) (s : GameState) (m : MoveInput)
    (h1 : s.stats.t1_matches ≤ s.stats.t2_matches)
    (h2 : s.stats.t2_matches ≤ s.stats.t3_matches) :
    (processMove skip s m).stats.t1_matches ≤
      (processMove skip s m).stats.t2_matches ∧
    (processMove skip s m).stats.t2_matches ≤
      (processMove skip s m).stats.t3_matches := by
  rw [processMove_eq]
  split_ifs
  · exact ⟨h1, h2⟩
  · cases m.preEval with
    | none => exact ⟨h1, h2⟩
    | some pre =>
      cases m.postEval with
      | none => exact updateMatches_mono s.stats m.uci pre.2 h1 h2
      | some ea =>
        have hm := updateMatches_mono s.stats m.uci pre.2 h1 h2
        have ht := updateLoss_t_matches (updateMatches s.stats m.uci pre.2)
          (get_game_phase m.fullmove m.pieceCount)
          (move_loss m.mover (cp_value pre.1) (cp_value ea))
        dsimp only
        rw [ht.1, ht.2.1, ht.2.2]
        exact hm

/-- `runBatch` preserves `t1 ≤ t2 ≤ t3` from the zero-initialised stats. -/
theorem runBatch_mono (skip : Nat) (games : List (List MoveInput)) :
    (runBatch skip games).t1_matches ≤ (runBatch skip games).t2_matches ∧
    (runBatch skip games).t2_matches ≤ (runBatch skip games).t3_matches := by
  unfold runBatch
  refine foldl_preserve
    (fun st => st.t1_matches ≤ st.t2_matches ∧ st.t2_matches ≤ st.t3_matches)
    _ games stats_init ⟨Nat.le_refl 0, Nat.le_refl 0⟩ ?_
  intro st g hst
  unfold processGame
  have := foldl_preserve
    (fun gs : GameState =>
      gs.stats.t1_matches ≤ gs.stats.t2_matches ∧
      gs.stats.t2_matches ≤ gs.stats.t3_matches)
    (processMove skip) g { stats := st, board := [], move_num := 0 } hst
    (fun gs m h => processMove_mono skip gs m h.1 h.2)
  exact this

/-- Claim C7: a played move matching the candidate at rank k increments every
tier counter for tiers ≥ k by exactly one and leaves the lower tiers
unchanged (rank 1: all three; rank 2: t2 and t3; rank 3: t3 only); the
monotonicity `t1_matches ≤ t2_matches ≤ t3_matches` is preserved by every
per-move step and holds in the final returned statistics. -/
theorem C7_rank_match_cumulative (st : Stats) (played : String)
    (tops : List String) (skip : Nat) (s : GameState) (m : MoveInput)
    (games : List (List MoveInput)) :
    (played ∈ tops.take 1 →
      (updateMatches st played tops).t1_matches = st.t1_matches + 1 ∧
      (updateMatches st played tops).t2_matches = st.t2_matches + 1 ∧
      (updateMatches st played tops).t3_matches = st.t3_matches + 1) ∧
    (played ∉ tops.take 1 → played ∈ tops.take 2 →
      (updateMatches st played tops).t1_matches = st.t1_matches ∧
      (updateMatches st played tops).t2_matches = st.t2_matches + 1 ∧
      (updateMatches st played tops).t3_matches = st.t3_matches + 1) ∧
    (played ∉ tops.take 2 → played ∈ tops.take 3 →
      (updateMatches st played tops).t1_matches = st.t1_matches ∧
      (updateMatches st played tops).t2_matches = st.t2_matches ∧
      (updateMatches st played tops).t3_matches = st.t3_matches + 1) ∧
    (s.stats.t1_matches ≤ s.stats.t2_matches →
      s.stats.t2_matches ≤ s.stats.t3_matches →
      (processMove skip s m).stats.t1_matches ≤
        (processMove skip s m).stats.t2_matches ∧
      (processMove skip s m).stats.t2_matches ≤
        (processMove skip s m).stats.t3_matches) ∧
    ((batch_analyze_games skip games).base.t1_matches ≤
      (batch_analyze_games skip games).base.t2_matches ∧
     (batch_analyze_games skip games).base.t2_matches ≤
      (batch_analyze_games skip games).base.t3_matches) := by
  have hsub : played ∈ tops.take 1 → played ∈ tops.take 2 := by
    intro h
    cases tops with
    | nil => simp at h
    | cons a rest =>
        simp only [List.take_succ_cons, List.take_zero,
          List.mem_singleton] at h
        simp [List.take_succ_cons, h]
  refine ⟨?_, ?_, ?_, processMove_mono skip s m, ?_⟩
  · intro h; unfold updateMatches; simp [h]
  · intro h1 h2; unfold updateMatches; simp [h1, h2]
  · intro h2 h3
    have h1 : played ∉ tops.take 1 := fun h => h2 (hsub h)
    unfold updateMatches; simp [h1, h2, h3]
  · rw [batch_analyze_games, deriveStats_base]
    exact runBatch_mono skip games

/-- Witness for C7: a rank-2 match (played move second in the candidate
list) increments t2 and t3 and leaves t1 unchanged. -/
theorem C7_witness :
    (updateMatches stats_init "b" ["x", "b"]).t1_matches =
      stats_init.t1_matches ∧
    (updateMatches stats_init "b" ["x", "b"]).t2_matches =
      stats_init.t2_matches + 1 ∧
    (updateMatches stats_init "b" ["x", "b"]).t3_matches =
      stats_init.t3_matches + 1 :=
  (C7_rank_match_cumulative stats_init "b" ["x", "b"] 0
      ⟨stats_init, [], 0⟩ okMove []).2.1 (by decide) (by decide)

/-- Claim C8: severity tiers partition losses exactly — `loss > 200` bumps
only the blunder counter, `100 < loss ≤ 200` only the mistake counter,
`50 < loss ≤ 100` only the inaccuracy counter, `loss ≤ 50` none; at most one
of the three counters moves per evaluated half-move; and a blunder's full
loss is still added to `total_cpl`. -/
theorem C8_severity_tiers (st : Stats) (p : Phase) (cpl : Int) :
    (200 < cpl →
      (updateLoss st p cpl).blunders = st.blunders + 1 ∧
      (updateLoss st p cpl).mistakes = st.mistakes ∧
      (updateLoss st p cpl).inaccuracies = st.inaccuracies ∧
      (updateLoss st p cpl).total_cpl = st.total_cpl + cpl) ∧
    (100 < cpl ∧ cpl ≤ 200 →
      (updateLoss st p cpl).blunders = st.blunders ∧
      (updateLoss st p cpl).mistakes = st.mistakes + 1 ∧
      (updateLoss st p cpl).inaccuracies = st.inaccuracies) ∧
    (50 < cpl ∧ cpl ≤ 100 →
      (updateLoss st p cpl).blunders = st.blunders ∧
      (updateLoss st p cpl).mistakes = st.mistakes ∧
      (updateLoss st p cpl).inaccuracies = st.inaccuracies + 1) ∧
    (cpl ≤ 50 →
      (updateLoss st p cpl).blunders = st.blunders ∧
      (updateLoss st p cpl).mistakes = st.mistakes ∧
      (updateLoss st p cpl).inaccuracies = st.inaccuracies) ∧
    (updateLoss st p cpl).blunders + (updateLoss st p cpl).mistakes +
        (updateLoss st p cpl).inaccuracies ≤
      st.blunders + st.mistakes + st.inaccuracies + 1 := by
  obtain ⟨hb, hm, hi, hc, -⟩ := updateLoss_fields st p cpl
  rw [hb, hm, hi, hc]
  split_ifs <;>
    exact ⟨fun h => by omega, fun h => by omega, fun h => by omega,
      fun h => by omega, by omega⟩

/-- Witness for C8 at a 300 cp loss: only the blunder counter moves and the
full loss lands in `total_cpl`. -/
theorem C8_witness :
    (updateLoss stats_init Phase.opening 300).blunders =
      stats_init.blunders + 1 ∧
    (updateLoss stats_init Phase.opening 300).mistakes = stats_init.mistakes ∧
    (updateLoss stats_init Phase.opening 300).inaccuracies =
      stats_init.inaccuracies ∧
    (updateLoss stats_init Phase.opening 300).total_cpl =
      stats_init.total_cpl + 300 :=
  (C8_severity_tiers stats_init Phase.opening 300).1 (by decide)

/-- `updateMatches` does not touch the conserved totals or the per-phase
sub-dicts. -/
theorem updateMatches_conserved (st : Stats) (played : String)
    (tops : List String) (h : conserved st) :
    conserved (updateMatches st played tops) := by
  unfold updateMatches
  split_ifs <;> exact h

/-- `updateLoss` preserves phase conservation. -/
theorem updateLoss_conserved (st : Stats) (p : Phase) (cpl : Int)
    (h : conserved st) : conserved (updateLoss st p cpl) := by
  obtain ⟨h1, h2, h3⟩ := h
  unfold conserved
  cases p <;> simp only [updateLoss, Stats.phaseUpdate] <;> split_ifs <;>
    dsimp only <;> exact ⟨by omega, by omega, by omega⟩

/-- `processMove` preserves phase conservation. -/
theorem processMove_conserved (skip : Nat) (s : GameState) (m : MoveInput)
    (h : conserved s.stats) : conserved (processMove skip s m).stats := by
  rw [processMove_eq]
  split_ifs
  · exact h
  · cases hpre : m.preEval with
    | none => exact h
    | some pre =>
      cases hpost : m.postEval with
      | none => exact updateMatches_conserved s.stats m.uci pre.2 h
      | some ea =>
        exact updateLoss_conserved _ _ _
          (updateMatches_conserved s.stats m.uci pre.2 h)

/-- Claim C10: phase decomposition is conservative — `total_positions`,
`total_cpl` and the blunder count each equal the sum of the corresponding
per-phase counters; the property is preserved by every per-move step and
holds in the statistics returned for any batch. -/
theorem C10_phase_conservation (skip : Nat) (s : GameState) (m : MoveInput)
    (games : List (List MoveInput)) (h : conserved s.stats) :
    conserved (processMove skip s m).stats ∧
    conserved (runBatch skip games) ∧
    conserved (batch_analyze_games skip games).base := by
  have hrun : conserved (runBatch skip games) := by
    unfold runBatch
    refine foldl_preserve conserved _ games stats_init ⟨rfl, rfl, rfl⟩ ?_
    intro st g hst
    unfold processGame
    have := foldl_preserve (fun gs : GameState => conserved gs.stats)
      (processMove skip) g { stats := st, board := [], move_num := 0 } hst
      (fun gs mv hc => processMove_conserved skip gs mv hc)
    exact this
  refine ⟨processMove_conserved skip s m h, hrun, ?_⟩
  rw [batch_analyze_games, deriveStats_base]
  exact hrun

/-- Witness for C10 on a one-game, one-move batch. -/
theorem C10_witness :
    conserved (processMove 0 ⟨stats_init, [], 0⟩ okMove).stats ∧
    conserved (runBatch 0 [[okMove]]) ∧
    conserved (batch_analyze_games 0 [[okMove]]).base :=
  C10_phase_conservation 0 ⟨stats_init, [], 0⟩ okMove [[okMove]] (by decide)

/-- Witness for C5 at the empty batch. -/
theorem C5_witness :
    (batch_analyze_games 0 []).acpl = some 0 ∧
    (batch_analyze_games 0 []).blunder_rate = some 0 ∧
    (batch_analyze_games 0 []).t1_accuracy = some 0 ∧
    (batch_analyze_games 0 []).mistake_rate = none ∧
    (batch_analyze_games 0 []).inaccuracy_rate = none ∧
    (batch_analyze_games 0 []).t2_accuracy = none ∧
    (batch_analyze_games 0 []).t3_accuracy = none :=
  C5_zero_guard 0 [] (by decide)

end ChessCode
